import Mathlib

/-!
A verification development for the peer-to-peer multiplayer game repository
(source files `network.py`, `server.py`, `client.py`).  The Python code is
shallowly embedded: pure fragments become Lean functions, socket reads become
explicit byte streams (a `List Nat` of pending bytes, `[]` meaning EOF under
the maximal-read schedule `recv k = take k`), Python exceptions become
explicit result constructors, and the unbounded `while` loops of the framing
layer take an explicit fuel argument so that divergence is observable as
`fuelOut` for every fuel.
-/

namespace Dist24

/-! ## Framed transport (`Connection` in `network.py` and `server.py`) -/

/-- Big-endian 4-byte encoding of a length, as `struct.pack("!L", n)` does for
values below `2 ^ 32`. -/
def be32 (n : Nat) : List Nat :=
  [n / 16777216 % 256, n / 65536 % 256, n / 256 % 256, n % 256]

/-- Big-endian decoding of a 4-byte header, as `struct.unpack("!L", b)`. -/
def be32val (b : List Nat) : Nat :=
  match b with
  | [a, b1, c, d] => ((a * 256 + b1) * 256 + c) * 256 + d
  | _ => 0

/-- UTF-8 encoding of a single Unicode code point (`str.encode()` per
character). -/
def utf8EncodeChar (c : Nat) : List Nat :=
  if c < 128 then [c]
  else if c < 2048 then [192 + c / 64, 128 + c % 64]
  else if c < 65536 then [224 + c / 4096, 128 + c / 64 % 64, 128 + c % 64]
  else [240 + c / 262144, 128 + c / 4096 % 64, 128 + c / 64 % 64, 128 + c % 64]

/-- UTF-8 encoding of a string, modelled as a list of Unicode code points:
this is Python's `msg.encode()`. -/
def utf8Encode (msg : List Nat) : List Nat :=
  msg.flatMap utf8EncodeChar

/-- Continuation byte test for UTF-8 decoding. -/
def isCont (b : Nat) : Bool :=
  decide (128 ≤ b ∧ b ≤ 191)

/-- Allowed range of the first continuation byte of a 3-byte sequence
(excluding overlong encodings and surrogates, as Python's strict decoder
does). -/
def cont3Ok (b b1 : Nat) : Bool :=
  if b = 224 then decide (160 ≤ b1 ∧ b1 ≤ 191)
  else if b = 237 then decide (128 ≤ b1 ∧ b1 ≤ 159)
  else isCont b1

/-- Allowed range of the first continuation byte of a 4-byte sequence. -/
def cont4Ok (b b1 : Nat) : Bool :=
  if b = 240 then decide (144 ≤ b1 ∧ b1 ≤ 191)
  else if b = 244 then decide (128 ≤ b1 ∧ b1 ≤ 143)
  else isCont b1

/-- Strict UTF-8 decoding of a byte list into code points; `none` models the
`UnicodeDecodeError` raised by Python's `bytes.decode()`. -/
def utf8Decode : List Nat → Option (List Nat)
  | [] => some []
  | b :: rest =>
    if b < 128 then (utf8Decode rest).map (fun l => b :: l)
    else if 194 ≤ b ∧ b ≤ 223 then
      match rest with
      | b1 :: r1 =>
        if isCont b1 then
          (utf8Decode r1).map (fun l => ((b - 192) * 64 + (b1 - 128)) :: l)
        else none
      | [] => none
    else if 224 ≤ b ∧ b ≤ 239 then
      match rest with
      | b1 :: b2 :: r2 =>
        if cont3Ok b b1 && isCont b2 then
          (utf8Decode r2).map
            (fun l => ((b - 224) * 4096 + (b1 - 128) * 64 + (b2 - 128)) :: l)
        else none
      | _ => none
    else if 240 ≤ b ∧ b ≤ 244 then
      match rest with
      | b1 :: b2 :: b3 :: r3 =>
        if cont4Ok b b1 && isCont b2 && isCont b3 then
          (utf8Decode r3).map
            (fun l => ((b - 240) * 262144 + (b1 - 128) * 4096 +
                       (b2 - 128) * 64 + (b3 - 128)) :: l)
        else none
      | _ => none
    else none

/-- The frame built by `Connection.send_message`: the header is
`struct.pack("!L", len(msg))` — the CHARACTER count of the string — while the
body is `msg.encode()`, the UTF-8 bytes. -/
def sendMessage (msg : List Nat) : List Nat :=
  be32 msg.length ++ utf8Encode msg

/-- Result of one `Connection.receive_message` call: a decoded payload plus
the unread rest of the stream, the `ConnectionResetError` raised on EOF
mid-body, the `UnicodeDecodeError` on malformed payload bytes, or fuel
exhaustion (the call never returned within the given number of loop
iterations). -/
inductive RecvResult where
  | ok (payload : List Nat) (rest : List Nat)
  | connReset
  | badUnicode
  | fuelOut
deriving DecidableEq, Repr

/-- One combined loop for `Connection.receive_message`.  The code first runs
`while len(buffer) < 4 and data_counter == 0` reading header bytes (with NO
check for an empty `recv` result, i.e. EOF), then `while True` reading body
bytes, raising `ConnectionResetError` when `recv` returns no data.  The
header loop's only exit is `data_counter != 0`, so the two loops fuse into a
single iteration guarded by the header condition.  `recv k` is modelled as
taking the next `min k |stream|` bytes; a drained stream models EOF. -/
def recvMsg : Nat → List Nat → List Nat → Nat → RecvResult
  | 0, _, _, _ => .fuelOut
  | fuel + 1, stream, buffer, counter =>
    if buffer.length < 4 ∧ counter = 0 then
      -- header loop iteration: recv(4 - len(buffer))
      let chunk := stream.take (4 - buffer.length)
      let stream1 := stream.drop (4 - buffer.length)
      let buf1 := buffer ++ chunk
      if buf1.length = 4 then recvMsg fuel stream1 [] (be32val buf1)
      else recvMsg fuel stream1 buf1 0
    else
      -- body loop iteration: recv(data_counter)
      let data := stream.take counter
      let stream1 := stream.drop counter
      if data.isEmpty then .connReset
      else
        let buf1 := buffer ++ data
        let counter1 := counter - data.length
        if counter1 ≠ 0 then recvMsg fuel stream1 buf1 counter1
        else
          match utf8Decode buf1 with
          | some payload => .ok payload stream1
          | none => .badUnicode

/-- At EOF (drained stream) with an incomplete header buffer, every header
loop iteration appends the empty `recv` result and recurses on the same
state: the loop never exits, whatever the fuel. -/
theorem recvMsg_eof_header (fuel : Nat) :
    ∀ buf : List Nat, buf.length < 4 → recvMsg fuel [] buf 0 = .fuelOut := by
  induction fuel with
  | zero => intro buf _; rfl
  | succ n ih =>
    intro buf h
    simp only [recvMsg]
    rw [if_pos ⟨h, trivial⟩]
    simp only [List.take_nil, List.drop_nil, List.append_nil]
    rw [if_neg (by omega)]
    exact ih buf h

/-- C1: the frame round-trip claim fails.  `send_message` packs
`len(msg)` — the CHARACTER count — into the header, not the UTF-8 byte
count.  At the one-character payload "é" (code point 233, UTF-8 bytes
`0xC3 0xA9`) the header says 1 while the body has 2 bytes, and
`receive_message` applied to that very frame reads a single body byte and
raises `UnicodeDecodeError` instead of returning the payload. -/
theorem frame_header_counts_chars_not_bytes :
    sendMessage [233] = [0, 0, 0, 1, 195, 169] ∧
    (utf8Encode [233]).length = 2 ∧
    be32val [0, 0, 0, 1] ≠ (utf8Encode [233]).length ∧
    recvMsg 8 (sendMessage [233]) [] 0 = .badUnicode := by
  refine ⟨by decide, by decide, by decide, by decide⟩

/-- C5: `receive_message` and peer shutdown.  A complete frame is returned;
EOF mid-body raises `ConnectionResetError` as the claim states; but when EOF
arrives while the 4-byte header is still incomplete (here: only 2 header
bytes ever arrive) the header loop, which never tests `recv`'s result for
emptiness, spins forever instead of raising — `fuelOut` for every fuel. -/
theorem receive_message_eof_behaviour :
    recvMsg 8 (sendMessage [104, 105]) [] 0 = .ok [104, 105] [] ∧
    recvMsg 8 [0, 0, 0, 2, 104] [] 0 = .connReset ∧
    (∀ fuel, recvMsg fuel [0, 0] [] 0 = .fuelOut) := by
  refine ⟨by decide, by decide, ?_⟩
  intro fuel
  match fuel with
  | 0 => rfl
  | n + 1 => exact recvMsg_eof_header n [0, 0] (by simp)

/-- C10, counterexample: a zero-length frame does NOT make
`receive_message` raise `ConnectionResetError`.  `send_message ""` does
produce the bare header `00 00 00 00`, but on receipt the header loop's
guard `len(buffer) < 4 and data_counter == 0` still holds after parsing it,
so the loop just reads the NEXT four bytes as a fresh header: here the empty
frame followed by the frame for "a" yields the payload "a" with no error. -/
theorem zero_length_frame_skipped_not_reset :
    sendMessage [] = [0, 0, 0, 0] ∧
    recvMsg 8 ([0, 0, 0, 0] ++ sendMessage [97]) [] 0 = .ok [97] [] := by
  refine ⟨by decide, by decide⟩

/-- C10, amended: a receiver facing a zero-length frame never returns an
empty payload and never raises: it silently consumes the four header bytes
and continues with whatever follows (one fuel step later), and if nothing
follows it loops forever in the header loop.  The empty message is thus
invisible at the receiver — by being skipped or by hanging, not by
`ConnectionResetError`. -/
theorem zero_length_frame_semantics :
    sendMessage [] = [0, 0, 0, 0] ∧
    (∀ (s : List Nat) (fuel : Nat),
      recvMsg (fuel + 1) ([0, 0, 0, 0] ++ s) [] 0 = recvMsg fuel s [] 0) ∧
    (∀ fuel, recvMsg fuel [0, 0, 0, 0] [] 0 = .fuelOut) := by
  refine ⟨by decide, ?_, ?_⟩
  · intro s fuel
    rfl
  · intro fuel
    match fuel with
    | 0 => rfl
    | n + 1 => exact recvMsg_eof_header n [] (by simp)

/-! ## Peer registry (`Peers` in `network.py`) -/

/-- A known-peer entry as built by `Peers._create_entry`: a dict holding the
peer's address, a liveness timestamp and an optional connection handle
(addresses and handles are abstracted to numbers — only the timestamp is
computed with). -/
structure PeerEntry where
  ip : Nat
  ts : Int
  conn : Option Nat
deriving DecidableEq, Repr

/-- The key list of a peer entry dict, in insertion order. -/
def peerEntryKeys : List String := ["ip", "ts", "conn"]

/-- Source model of `Peers.remove_stale_nodes`.  Its loop
`for id, (ip, timestamp) in self._peers.items()` unpacks each entry VALUE —
a dict with the three keys of `peerEntryKeys` — into two names.  Python
unpacks a dict by iterating its keys, so three keys against two targets
raise `ValueError` on the first entry (and with exactly two keys the names
would be bound to the key strings, making `current_time - timestamp` a
`TypeError`).  Only an empty registry completes, returning no removals. -/
def removeStaleNodes (peers : List (Nat × PeerEntry)) (now timeout : Int) :
    Except String (List Nat × List (Nat × PeerEntry)) :=
  match peers with
  | [] => .ok ([], peers)
  | _ :: _ =>
    match peerEntryKeys with
    | [_, _] => .error "TypeError: unsupported operand type for -"
    | _ => .error "ValueError: too many values to unpack (expected 2)"

/-- Modelled from the spec: the corrected stale sweep the spec mandates in
place of the source's latent bug ("the registry exposes a sweep that removes
any peer whose last_seen is older than a configurable threshold"): collect
the ids whose timestamp is more than `timeout` seconds older than `now`,
then delete exactly those ids from the registry. -/
def removeStaleNodesSpec (peers : List (Nat × PeerEntry)) (now timeout : Int) :
    List Nat × List (Nat × PeerEntry) :=
  let removed := (peers.filter (fun p => decide (timeout < now - p.2.ts))).map Prod.fst
  (removed, removed.foldl (fun ps i => ps.eraseP (fun q => q.1 == i)) peers)

/-- C2: the stale-sweep claim fails on the source code.  On any non-empty
registry (here a single peer, 100 s stale against a 30 s timeout)
`remove_stale_nodes` raises `ValueError` while unpacking the first
dict-shaped entry — it removes nothing and returns no ids; only the empty
registry survives the call. -/
theorem remove_stale_nodes_raises_on_nonempty :
    removeStaleNodes [(1, ⟨7, 0, none⟩)] 100 30
      = .error "ValueError: too many values to unpack (expected 2)" ∧
    removeStaleNodes [] 100 30 = .ok ([], []) :=
  ⟨rfl, rfl⟩

/-- Erasing by key from an association list with distinct keys is filtering
that key out. -/
theorem eraseP_key_eq_filter (r : Nat) :
    ∀ ps : List (Nat × PeerEntry), (ps.map Prod.fst).Nodup →
      ps.eraseP (fun q => q.1 == r) = ps.filter (fun q => decide (q.1 ≠ r)) := by
  intro ps
  induction ps with
  | nil => intro _; rfl
  | cons p t ih =>
    intro hnd
    simp only [List.map_cons, List.nodup_cons] at hnd
    by_cases hp : p.1 = r
    · rw [List.eraseP_cons_of_pos (by simp [hp]), List.filter_cons_of_neg (by simp [hp])]
      symm
      rw [List.filter_eq_self]
      intro a ha
      simp only [ne_eq, decide_eq_true_eq]
      intro har
      exact hnd.1 (hp ▸ har ▸ List.mem_map_of_mem Prod.fst ha)
    · rw [List.eraseP_cons_of_neg (by simp [hp]), List.filter_cons_of_pos (by simp [hp])]
      rw [ih hnd.2]

/-- Deleting a list of keys one by one from a distinct-keyed association
list is filtering out membership in that key list. -/
theorem foldl_eraseP_eq_filter :
    ∀ (keys : List Nat) (ps : List (Nat × PeerEntry)), (ps.map Prod.fst).Nodup →
      keys.foldl (fun acc i => acc.eraseP (fun q => q.1 == i)) ps
        = ps.filter (fun q => !decide (q.1 ∈ keys)) := by
  intro keys
  induction keys with
  | nil => intro ps _; simp
  | cons r rest ih =>
    intro ps hnd
    simp only [List.foldl_cons]
    rw [eraseP_key_eq_filter r ps hnd]
    rw [ih _ (((List.filter_sublist ps).map Prod.fst).nodup hnd)]
    rw [List.filter_filter]
    apply List.filter_congr
    intro a _
    by_cases h1 : a.1 = r <;> by_cases h2 : a.1 ∈ rest <;> simp [h1, h2]

/-- Supporting theorem for C2: with distinct peer ids the spec-mandated
corrected sweep returns exactly the ids of the entries more than `timeout`
seconds stale, and keeps exactly the fresh entries, in registry order. -/
theorem removeStaleNodesSpec_correct (peers : List (Nat × PeerEntry))
    (now timeout : Int) (hnd : (peers.map Prod.fst).Nodup) :
    (removeStaleNodesSpec peers now timeout).1
      = (peers.filter (fun p => decide (timeout < now - p.2.ts))).map Prod.fst ∧
    (removeStaleNodesSpec peers now timeout).2
      = peers.filter (fun p => !decide (timeout < now - p.2.ts)) := by
  refine ⟨rfl, ?_⟩
  show List.foldl _ peers _ = _
  rw [foldl_eraseP_eq_filter _ _ hnd]
  apply List.filter_congr
  intro a ha
  congr 1
  rw [decide_eq_decide]
  constructor
  · intro hmem
    obtain ⟨b, hb, hb1⟩ := List.mem_map.mp hmem
    obtain ⟨hbp, hbs⟩ := List.mem_filter.mp hb
    have hba : b = a := List.inj_on_of_nodup_map hnd hbp ha hb1
    subst hba
    simpa using hbs
  · intro hstale
    exact List.mem_map_of_mem Prod.fst (List.mem_filter.mpr ⟨ha, by simpa using hstale⟩)

/-! ## Handshake (`handshake_new_peer` in `network.py`) -/

/-- The fixed game id `"asdf"` that partitions unrelated instances. -/
def GAME_ID : List Char := ['a', 's', 'd', 'f']

/-- Splitting of a character string on a separator, as Python's
`str.split`. -/
def splitOnChar (sep : Char) : List Char → List (List Char)
  | [] => [[]]
  | c :: rest =>
    if c = sep then [] :: splitOnChar sep rest
    else
      match splitOnChar sep rest with
      | f :: fs => (c :: f) :: fs
      | [] => [[c]]

/-- Hexadecimal digit test used by UUID parsing. -/
def isHexDigit (c : Char) : Bool :=
  decide (('0' ≤ c ∧ c ≤ '9') ∨ ('a' ≤ c ∧ c ≤ 'f') ∨ ('A' ≤ c ∧ c ≤ 'F'))

/-- Canonical-form UUID test, modelling `uuid.UUID(s)` on the hyphenated
8-4-4-4-12 format — the only format peers actually send, since declarations
are built with `str(node_id)`.  Anything else raises `ValueError`. -/
def validUUID (s : List Char) : Bool :=
  match splitOnChar '-' s with
  | [a, b, c, d, e] =>
    decide (a.length = 8 ∧ b.length = 4 ∧ c.length = 4 ∧ d.length = 4 ∧
            e.length = 12) &&
    (a.all isHexDigit && b.all isHexDigit && c.all isHexDigit &&
     d.all isHexDigit && e.all isHexDigit)
  | _ => false

/-- Outcome of parsing a peer's handshake declaration: the returned UUID, the
`None` of a rejected declaration, or an uncaught Python exception. -/
inductive HandshakeResult where
  | ok (uuid : List Char)
  | rejected
  | error (e : String)
deriving DecidableEq, Repr

/-- The receive half of `handshake_new_peer`: `msgs = msg.split(",")`, then
the guard `if len(msgs) != 2 and msgs[0] != GAME_ID` — note `and` — returns
`None`, else `uuid.UUID(msgs[1])` is returned (an `IndexError` when there is
no second field, a `ValueError` when the second field is not a UUID). -/
def handshakeNewPeer (msg : List Char) : HandshakeResult :=
  let msgs := splitOnChar ',' msg
  if msgs.length ≠ 2 ∧ msgs.headI ≠ GAME_ID then .rejected
  else
    match msgs.get? 1 with
    | none => .error "IndexError"
    | some u => if validUUID u then .ok u else .error "ValueError"

/-- C3: the handshake-failure claim fails on the source code.  The guard
joins its two failure conditions with `and` where the claim (and spec) need
`or`: a well-formed two-field declaration carrying the wrong game id
`"zzzz"` is accepted and its UUID returned instead of being rejected, and a
one-field declaration carrying the correct game id crashes with `IndexError`
instead of returning `None`.  Only a declaration failing both conditions at
once is rejected. -/
theorem handshake_accepts_wrong_game_id :
    handshakeNewPeer ("zzzz,123e4567-e89b-12d3-a456-426614174000".toList)
      = .ok ("123e4567-e89b-12d3-a456-426614174000".toList) ∧
    "zzzz".toList ≠ GAME_ID ∧
    handshakeNewPeer ("asdf".toList) = .error "IndexError" ∧
    handshakeNewPeer ("zzzz".toList) = .rejected := by
  refine ⟨by decide, by decide, by decide, by decide⟩

/-! ## Leader election (`bully2` in `network.py`) -/

/-- The election-relevant identity of a node: its own id and the snapshot of
known peer ids in registry insertion order (`known_peers.copy()` preserves
dict order).  Node ids are abstracted to naturals; only their total order is
used by the election. -/
structure BullyNode where
  selfId : Nat
  peers : List Nat
deriving DecidableEq, Repr

/-- The election engine's mutable state inside `bully2`: the two waiting
flags, the notified-this-election set (insertion order kept) and the
registry's leader slot. -/
structure BullySt where
  waitingOK : Bool
  waitingCOORD : Bool
  notified : List Nat
  leader : Option Nat
deriving DecidableEq, Repr

/-- One iteration of the loop inside `send_election_messages`: forward ELECT
to a higher-id peer not yet notified this election, recording it. -/
def electFold (n : BullyNode) (acc : List Nat × List (Nat × String)) (pid : Nat) :
    List Nat × List (Nat × String) :=
  if n.selfId < pid ∧ pid ∉ acc.1 then (acc.1 ++ [pid], acc.2 ++ [(pid, "ELECT")])
  else acc

/-- Model of `send_election_messages`: walk the peer snapshot sending ELECT to every
not-yet-notified higher-id peer.  Despite its docstring, it does NOT set
self as coordinator when there are none — it simply sends nothing.  Returns
the grown notified set and the outgoing bully messages. -/
def sendElectionMessages (n : BullyNode) (notified : List Nat) :
    List Nat × List (Nat × String) :=
  n.peers.foldl (electFold n) (notified, [])

/-- Model of `set_self_as_coordinator`: COORD to every peer except self, the leader
slot set to self, and the SYNC_GAMESTATE maintenance signal posted.  Returns
the new state, the outgoing bully messages, and the maintenance postings. -/
def setSelfAsCoordinator (n : BullyNode) (st : BullySt) :
    BullySt × List (Nat × String) × List String :=
  ({ st with leader := some n.selfId },
   ((n.peers.filter (fun p => decide (p ≠ n.selfId))).map (fun p => (p, "COORD")),
    ["SYNC"]))

/-- Handling of one ELECT message from `sender` in `bully2`'s loop: reply OK
when the sender's id is lower, forward ELECT to not-yet-notified higher
peers, and raise the waiting-for-OK flag.  Returns the new state and the
bully messages this step puts on the outgoing queue, in order. -/
def handleElect (n : BullyNode) (sender : Nat) (st : BullySt) :
    BullySt × List (Nat × String) :=
  let okMsgs := if sender < n.selfId then [(sender, "OK")] else []
  let r := sendElectionMessages n st.notified
  ({ st with notified := r.1, waitingOK := true }, okMsgs ++ r.2)

/-- The 2-second-timeout branch of `bully2` while waiting for OK: clear the
flag and the notified set, then self-promote via
`set_self_as_coordinator`. -/
def okTimeoutStep (n : BullyNode) (st : BullySt) :
    BullySt × List (Nat × String) × List String :=
  setSelfAsCoordinator n { st with waitingOK := false, notified := [] }

/-- Every message accumulated by the election fold is either inherited from
the accumulator or an ELECT addressed to a strictly higher peer id. -/
theorem electFold_msgs (n : BullyNode) :
    ∀ (t : List Nat) (acc : List Nat × List (Nat × String)),
      ∀ m ∈ (t.foldl (electFold n) acc).2,
        m ∈ acc.2 ∨ (n.selfId < m.1 ∧ m.2 = "ELECT") := by
  intro t
  induction t with
  | nil => intro acc m hm; exact Or.inl hm
  | cons p rest ih =>
    intro acc m hm
    simp only [List.foldl_cons, electFold] at hm
    by_cases hp : n.selfId < p ∧ p ∉ acc.1
    · rw [if_pos hp] at hm
      rcases ih _ m hm with h | h
      · rcases List.mem_append.mp h with h1 | h1
        · exact Or.inl h1
        · rcases List.mem_singleton.mp h1 with rfl
          exact Or.inr ⟨hp.1, rfl⟩
      · exact Or.inr h
    · rw [if_neg hp] at hm
      exact ih _ m hm

/-- With no higher-id peer in the snapshot the election fold does nothing at
all. -/
theorem electFold_no_higher (n : BullyNode) :
    ∀ (t : List Nat), (∀ p ∈ t, p ≤ n.selfId) →
      ∀ acc, t.foldl (electFold n) acc = acc := by
  intro t
  induction t with
  | nil => intro _ acc; rfl
  | cons p rest ih =>
    intro h acc
    simp only [List.foldl_cons, electFold]
    rw [if_neg (fun hc => absurd (h p (List.mem_cons_self p rest)) (not_le.mpr hc.1))]
    exact ih (fun q hq => h q (List.mem_cons_of_mem p hq)) acc

/-- C4, counterexample: handling an ELECT when no peer id exceeds one's own
does NOT self-promote within that transition.  Node id 5, peer snapshot
holding 3 and 5, sender 5 (the startup self-ELECT): the step sends NOTHING —
no COORD reaches peer 3, the leader slot stays empty, no maintenance signal
exists; the node merely starts waiting for OK.  This refutes "handling that
ELECT results in self-promotion … as part of that transition". -/
theorem elect_without_higher_peers_does_not_promote :
    (handleElect ⟨5, [3, 5]⟩ 5 ⟨false, false, [], none⟩).2 = [] ∧
    (handleElect ⟨5, [3, 5]⟩ 5 ⟨false, false, [], none⟩).1.leader ≠ some 5 ∧
    (handleElect ⟨5, [3, 5]⟩ 5 ⟨false, false, [], none⟩).1.waitingOK = true := by
  refine ⟨by decide, by decide, by decide⟩

/-- C4, amended: on an ELECT from sender S the engine replies OK exactly
when S's id is lower than its own.  When the registry snapshot holds no
higher id, the ELECT handler itself sends nothing beyond that possible OK
and only raises the waiting-for-OK flag, leaving the leader slot untouched;
the self-promotion the claim describes happens at the SUBSEQUENT 2-second
OK-timeout step, which sends COORD to every peer except self, sets the
leader slot to self, and posts the SYNC_GAMESTATE maintenance signal. -/
theorem bully_elect_ok_iff_lower (n : BullyNode) (sender : Nat) (st : BullySt) :
    ((sender, "OK") ∈ (handleElect n sender st).2 ↔ sender < n.selfId) ∧
    ((∀ p ∈ n.peers, p ≤ n.selfId) →
      (handleElect n sender st).2
          = (if sender < n.selfId then [(sender, "OK")] else []) ∧
      (handleElect n sender st).1.waitingOK = true ∧
      (handleElect n sender st).1.leader = st.leader ∧
      (okTimeoutStep n (handleElect n sender st).1).1.leader = some n.selfId ∧
      (okTimeoutStep n (handleElect n sender st).1).2.1
          = (n.peers.filter (fun p => decide (p ≠ n.selfId))).map
              (fun p => (p, "COORD")) ∧
      (okTimeoutStep n (handleElect n sender st).1).2.2 = ["SYNC"]) := by
  constructor
  · constructor
    · intro hmem
      by_cases hlt : sender < n.selfId
      · exact hlt
      · exfalso
        simp only [handleElect, if_neg hlt, List.nil_append] at hmem
        rcases electFold_msgs n n.peers (st.notified, []) _ hmem with h | h
        · exact absurd h (List.not_mem_nil _)
        · exact absurd h.2 (by simp)
    · intro hlt
      simp only [handleElect, if_pos hlt]
      exact List.mem_append_left _ (List.mem_singleton.mpr rfl)
  · intro hhi
    have hfold := electFold_no_higher n n.peers hhi (st.notified, [])
    refine ⟨?_, rfl, rfl, rfl, rfl, rfl⟩
    simp only [handleElect, sendElectionMessages, hfold, List.append_nil]

/-- Witness for the amended C4 theorem at node 5, peers 3 and 5, sender 3:
the hypothesis that no peer id exceeds 5 is discharged concretely. -/
theorem bully_elect_ok_iff_lower_witness :
    (((3 : Nat), "OK") ∈ (handleElect ⟨5, [3, 5]⟩ 3 ⟨false, false, [], none⟩).2
        ↔ 3 < 5) ∧
    (handleElect ⟨5, [3, 5]⟩ 3 ⟨false, false, [], none⟩).2 = [(3, "OK")] ∧
    (okTimeoutStep ⟨5, [3, 5]⟩
        (handleElect ⟨5, [3, 5]⟩ 3 ⟨false, false, [], none⟩).1).1.leader = some 5 ∧
    (okTimeoutStep ⟨5, [3, 5]⟩
        (handleElect ⟨5, [3, 5]⟩ 3 ⟨false, false, [], none⟩).1).2.1
      = [(3, "COORD")] ∧
    (okTimeoutStep ⟨5, [3, 5]⟩
        (handleElect ⟨5, [3, 5]⟩ 3 ⟨false, false, [], none⟩).1).2.2 = ["SYNC"] := by
  have h := bully_elect_ok_iff_lower ⟨5, [3, 5]⟩ 3 ⟨false, false, [], none⟩
  have h2 := h.2 (by decide)
  exact ⟨h.1, by rw [h2.1]; decide, h2.2.2.2.1, by rw [h2.2.2.2.2.1]; decide,
         h2.2.2.2.2.2⟩

/-! ## Server game tick (`server.py`) -/

def X_MIN : Int := 0
def X_MAX : Int := 580
def Y_MIN : Int := 0
def Y_MAX : Int := 380
def POINT_LIMIT : Nat := 5
def GATHERABLE_LIMIT : Nat := 3

/-- A player's record in the server's `players` dict. -/
structure Player where
  position : Int × Int
  lastDirection : Option String
  points : Nat
  gamesWon : Nat
deriving DecidableEq, Repr

/-- The server state the collision and spawn steps act on: the `players` and
`gatherables` dicts as insertion-ordered association lists.  A gatherable's
dict key is the number whose decimal string the code stores (`str(n)` is
injective, and only key equality is ever used). -/
structure GameSt where
  players : List (Nat × Player)
  gatherables : List (Nat × (Int × Int))
deriving DecidableEq, Repr

/-- Model of `check_collision`: exact position equality of player and object. -/
def checkCollision (px py ox oy : Int) : Bool :=
  decide (px = ox ∧ py = oy)

/-- Dict access `players[k]` on the association-list model (dict keys are
unique, so first match is the match). -/
def lookupKey (k : Nat) : List (Nat × Player) → Option Player
  | [] => none
  | (k1, v) :: t => if k = k1 then some v else lookupKey k t

/-- In-place mutation of one player's record under its (unique) dict key. -/
def updatePlayer (pid : Nat) (f : Player → Player) (ps : List (Nat × Player)) :
    List (Nat × Player) :=
  ps.map (fun q => if q.1 = pid then (q.1, f q.2) else q)

/-- Zeroing of one player's points, the body of `round_reset`'s loop. -/
def resetPoints (p : Player) : Player :=
  { p with points := 0 }

/-- Model of `round_reset`: the winner's `games_won` is incremented, then every
player's `points` — the winner's included — is set to 0. -/
def roundReset (pid : Nat) (ps : List (Nat × Player)) : List (Nat × Player) :=
  (updatePlayer pid (fun p => { p with gamesWon := p.gamesWon + 1 }) ps).map
    (fun q => (q.1, resetPoints q.2))

/-- Model of `kill_gatherable`: increment the killer's points, delete the gatherable,
and run `round_reset` when the incremented points reach `POINT_LIMIT`. -/
def killGatherable (pid : Nat) (key : Nat) (st : GameSt) : GameSt :=
  let ps1 := updatePlayer pid (fun p => { p with points := p.points + 1 }) st.players
  let gs1 := st.gatherables.eraseP (fun g => g.1 == key)
  let pts := ((lookupKey pid ps1).map Player.points).getD 0
  if POINT_LIMIT ≤ pts then { players := roundReset pid ps1, gatherables := gs1 }
  else { players := ps1, gatherables := gs1 }

/-- The nested loops of `gatherable_kill_check`: players in dict order, each
scanning the gatherables in dict order; on the FIRST exact collision run
`kill_gatherable` and return `True` immediately; with no collision at all
return `False` leaving the state untouched. -/
def killCheckLoop : List (Nat × Player) → GameSt → GameSt × Bool
  | [], st => (st, false)
  | (pid, pdata) :: rest, st =>
    match st.gatherables.find?
        (fun g => checkCollision pdata.position.1 pdata.position.2 g.2.1 g.2.2) with
    | some g => (killGatherable pid g.1 st, true)
    | none => killCheckLoop rest st

/-- Model of `gatherable_kill_check` on the current state (its two positional
arguments are dead: the loop shadows them immediately). -/
def gatherableKillCheck (st : GameSt) : GameSt × Bool :=
  killCheckLoop st.players st

/-- The pair the collision step acts on: the first player in dict order
standing on some gatherable, paired with the first such gatherable. -/
def firstCollision (ps : List (Nat × Player)) (gs : List (Nat × (Int × Int))) :
    Option (Nat × Nat) :=
  ps.findSome? (fun q =>
    (gs.find?
        (fun g => checkCollision q.2.position.1 q.2.position.2 g.2.1 g.2.2)).map
      (fun g => (q.1, g.1)))

/-- Looking up the updated key after an in-place player update. -/
theorem lookup_updatePlayer_self (pid : Nat) (f : Player → Player) :
    ∀ ps : List (Nat × Player),
      lookupKey pid (updatePlayer pid f ps) = (lookupKey pid ps).map f := by
  intro ps
  induction ps with
  | nil => rfl
  | cons p t ih =>
    obtain ⟨k, v⟩ := p
    show lookupKey pid ((if k = pid then (k, f v) else (k, v)) :: updatePlayer pid f t)
        = (lookupKey pid ((k, v) :: t)).map f
    by_cases hp : k = pid
    · subst hp
      rw [if_pos rfl]
      simp [lookupKey]
    · have hpk : pid ≠ k := fun h => hp h.symm
      rw [if_neg hp]
      simp [lookupKey, hpk, ih]

/-- Looking up a different key after an in-place player update. -/
theorem lookup_updatePlayer_other (pid q : Nat) (hne : q ≠ pid)
    (f : Player → Player) :
    ∀ ps : List (Nat × Player),
      lookupKey q (updatePlayer pid f ps) = lookupKey q ps := by
  intro ps
  induction ps with
  | nil => rfl
  | cons p t ih =>
    obtain ⟨k, v⟩ := p
    show lookupKey q ((if k = pid then (k, f v) else (k, v)) :: updatePlayer pid f t)
        = lookupKey q ((k, v) :: t)
    by_cases hp : k = pid
    · subst hp
      rw [if_pos rfl]
      simp [lookupKey, hne, ih]
    · rw [if_neg hp]
      by_cases hq : q = k
      · subst hq
        simp [lookupKey]
      · simp [lookupKey, hq, ih]

/-- Looking up any key through a value-only map. -/
theorem lookup_map_value (g : Player → Player) (q : Nat) :
    ∀ ps : List (Nat × Player),
      lookupKey q (ps.map (fun r => (r.1, g r.2))) = (lookupKey q ps).map g := by
  intro ps
  induction ps with
  | nil => rfl
  | cons p t ih =>
    obtain ⟨k, v⟩ := p
    show lookupKey q ((k, g v) :: t.map (fun r => (r.1, g r.2)))
        = (lookupKey q ((k, v) :: t)).map g
    by_cases hq : q = k
    · subst hq
      simp [lookupKey]
    · simp [lookupKey, hq, ih]

/-- The collision loop acts exactly on `firstCollision` of the snapshot. -/
theorem killCheckLoop_eq (st : GameSt) :
    ∀ ps : List (Nat × Player),
      killCheckLoop ps st
        = match firstCollision ps st.gatherables with
          | none => (st, false)
          | some (pid, key) => (killGatherable pid key st, true) := by
  intro ps
  induction ps with
  | nil => rfl
  | cons p t ih =>
    obtain ⟨pid, pdata⟩ := p
    cases hf : st.gatherables.find?
        (fun g => checkCollision pdata.position.1 pdata.position.2 g.2.1 g.2.2) with
    | some g => simp [killCheckLoop, firstCollision, hf]
    | none => simpa [killCheckLoop, firstCollision, hf] using ih

/-- C6, amended: one call of the collision step handles AT MOST the first
colliding (player, gatherable) pair in iteration order.  With no colliding
pair the state is untouched and `False` is returned.  With a first colliding
pair (pid, key): that gatherable alone is deleted and `True` returned;
pid's points grow by one; and exactly when the grown points reach
`POINT_LIMIT`, pid's games_won grows by one and every player's points (the
winner's included) resets to 0, all other records unchanged. -/
theorem collision_step_first_pair (st : GameSt) :
    (firstCollision st.players st.gatherables = none →
      gatherableKillCheck st = (st, false)) ∧
    (∀ pid key p,
      firstCollision st.players st.gatherables = some (pid, key) →
      lookupKey pid st.players = some p →
      (gatherableKillCheck st).2 = true ∧
      (gatherableKillCheck st).1.gatherables
          = st.gatherables.eraseP (fun g => g.1 == key) ∧
      (if POINT_LIMIT ≤ p.points + 1 then
        lookupKey pid (gatherableKillCheck st).1.players
            = some { p with points := 0, gamesWon := p.gamesWon + 1 } ∧
        (∀ q qp, q ≠ pid → lookupKey q st.players = some qp →
          lookupKey q (gatherableKillCheck st).1.players
              = some { qp with points := 0 })
       else
        lookupKey pid (gatherableKillCheck st).1.players
            = some { p with points := p.points + 1 } ∧
        (∀ q qp, q ≠ pid → lookupKey q st.players = some qp →
          lookupKey q (gatherableKillCheck st).1.players = some qp))) := by
  constructor
  · intro hnone
    rw [gatherableKillCheck, killCheckLoop_eq st st.players, hnone]
  · intro pid key p hsome hp
    rw [gatherableKillCheck, killCheckLoop_eq st st.players, hsome]
    have hlk : lookupKey pid (updatePlayer pid
        (fun r => { r with points := r.points + 1 }) st.players)
        = some { p with points := p.points + 1 } := by
      rw [lookup_updatePlayer_self, hp]; rfl
    refine ⟨rfl, ?_, ?_⟩
    · simp only [killGatherable, hlk]
      by_cases hlim : POINT_LIMIT ≤ p.points + 1
      · rw [if_pos (by simpa using hlim)]
      · rw [if_neg (by simpa using hlim)]
    · by_cases hlim : POINT_LIMIT ≤ p.points + 1
      · rw [if_pos hlim]
        constructor
        · simp only [killGatherable, hlk]
          rw [if_pos (by simpa using hlim)]
          show lookupKey pid (roundReset pid (updatePlayer pid
              (fun r => { r with points := r.points + 1 }) st.players))
            = some { p with points := 0, gamesWon := p.gamesWon + 1 }
          rw [roundReset, lookup_map_value, lookup_updatePlayer_self,
            lookup_updatePlayer_self, hp]
          rfl
        · intro q qp hq hlq
          simp only [killGatherable, hlk]
          rw [if_pos (by simpa using hlim)]
          show lookupKey q (roundReset pid (updatePlayer pid
              (fun r => { r with points := r.points + 1 }) st.players))
            = some { qp with points := 0 }
          rw [roundReset, lookup_map_value, lookup_updatePlayer_other _ _ hq,
            lookup_updatePlayer_other _ _ hq, hlq]
          rfl
      · rw [if_neg hlim]
        constructor
        · simp only [killGatherable, hlk]
          rw [if_neg (by simpa using hlim)]
          exact hlk
        · intro q qp hq hlq
          simp only [killGatherable, hlk]
          rw [if_neg (by simpa using hlim)]
          show lookupKey q (updatePlayer pid
              (fun r => { r with points := r.points + 1 }) st.players) = some qp
          rw [lookup_updatePlayer_other _ _ hq, hlq]

/-- A concrete two-player, two-gatherable state: player 1 stands on
gatherable 2, player 2 stands on gatherable 3. -/
def stC6 : GameSt :=
  { players := [(1, ⟨(0, 0), none, 0, 0⟩), (2, ⟨(10, 10), none, 0, 0⟩)],
    gatherables := [(2, (0, 0)), (3, (10, 10))] }

/-- C6, counterexample: with two players each standing on a distinct
gatherable, the collision step processes only the first pair: player 2
collides with gatherable 3 (`check_collision` holds), yet gatherable 3
survives the step and player 2's points stay 0 — refuting "for every
(player, gatherable) pair with exactly equal positions, the gatherable is
removed and that player's points is incremented by one". -/
theorem collision_step_only_first_pair :
    checkCollision 10 10 10 10 = true ∧
    (gatherableKillCheck stC6).1.gatherables = [(3, (10, 10))] ∧
    lookupKey 2 (gatherableKillCheck stC6).1.players = some ⟨(10, 10), none, 0, 0⟩ := by
  refine ⟨by decide, by decide, by decide⟩

/-- Witness for the amended C6 theorem on `stC6`: its first collision is
player 1 on gatherable 2, below the point limit. -/
theorem collision_step_first_pair_witness :
    (gatherableKillCheck stC6).2 = true ∧
    (gatherableKillCheck stC6).1.gatherables
        = stC6.gatherables.eraseP (fun g => g.1 == 2) ∧
    lookupKey 1 (gatherableKillCheck stC6).1.players
        = some { position := (0, 0), lastDirection := none,
                 points := 1, gamesWon := 0 } := by
  have h := (collision_step_first_pair stC6).2 1 2 ⟨(0, 0), none, 0, 0⟩
    (by decide) (by decide)
  refine ⟨h.1, h.2.1, ?_⟩
  have h3 := h.2.2
  rw [if_neg (by decide)] at h3
  exact h3.1

/-! ## Gatherable spawning (`spawn_gatherable` and the spawn step of
`update_positions` in `server.py`) -/

/-- Model of `player_pos_check`: collect every player position and test whether the
candidate cell is among them. -/
def playerPosCheck (x y : Int) (ps : List (Nat × Player)) : Bool :=
  (ps.map (fun q => q.2.position)).contains (x, y)

/-- The candidate cell drawn at attempt `t`:
`randint(0, 58) * 10` by `randint(0, 38) * 10`, the random draws supplied by
the oracle `gen`. -/
def cand (gen : Nat → Int × Int) (t : Nat) : Int × Int :=
  (10 * (gen t).1, 10 * (gen t).2)

/-- The `while tries < 1000` loop of `spawn_gatherable`: `fuel` is the
number of remaining attempts (1000 - tries) and `t` the current attempt
index.  The first unoccupied candidate is returned; when the attempts are
exhausted the loop falls through and the variables still hold the LAST
candidate, which is returned regardless of occupancy. -/
def spawnAux (gen : Nat → Int × Int) (ps : List (Nat × Player)) :
    Nat → Nat → Int × Int
  | 0, t => cand gen (t - 1)
  | fuel + 1, t =>
    if playerPosCheck (cand gen t).1 (cand gen t).2 ps then
      spawnAux gen ps fuel (t + 1)
    else cand gen t

/-- Model of `spawn_gatherable increment` with increment 10. -/
def spawnGatherable (gen : Nat → Int × Int) (ps : List (Nat × Player)) :
    Int × Int :=
  spawnAux gen ps 1000 0

/-- The spawn step inside `update_positions`: an `if`, not a `while` — when
the gatherable count is below `GATHERABLE_LIMIT` exactly ONE gatherable is
spawned; the local counter is incremented and the new entry is keyed by
`str(gatherable_counter + 1)` with the incremented counter, i.e. old counter
plus 2.  Returns the new state and counter. -/
def spawnStep (gen : Nat → Int × Int) (st : GameSt) (counter : Nat) :
    GameSt × Nat :=
  if st.gatherables.length < GATHERABLE_LIMIT then
    ({ st with gatherables :=
        st.gatherables ++ [(counter + 2, spawnGatherable gen st.players)] },
     counter + 1)
  else (st, counter)

/-- The spawn loop always returns one of the drawn candidates. -/
theorem spawnAux_is_candidate (gen : Nat → Int × Int)
    (ps : List (Nat × Player)) :
    ∀ fuel t, ∃ j, spawnAux gen ps fuel t = cand gen j := by
  intro fuel
  induction fuel with
  | zero => intro t; exact ⟨t - 1, rfl⟩
  | succ n ih =>
    intro t
    by_cases h : playerPosCheck (cand gen t).1 (cand gen t).2 ps
    · simpa [spawnAux, h] using ih (t + 1)
    · exact ⟨t, by simp [spawnAux, h]⟩

/-- The spawn loop's result is unoccupied unless every attempt in its range
drew an occupied cell. -/
theorem spawnAux_unoccupied_or_all (gen : Nat → Int × Int)
    (ps : List (Nat × Player)) :
    ∀ fuel t,
      playerPosCheck (spawnAux gen ps fuel t).1 (spawnAux gen ps fuel t).2 ps
          = false ∨
      (∀ k, t ≤ k → k < t + fuel →
        playerPosCheck (cand gen k).1 (cand gen k).2 ps = true) := by
  intro fuel
  induction fuel with
  | zero =>
    intro t
    exact Or.inr (fun k hk1 hk2 => absurd hk2 (by omega))
  | succ n ih =>
    intro t
    by_cases h : playerPosCheck (cand gen t).1 (cand gen t).2 ps
    · rcases ih (t + 1) with h1 | h1
      · exact Or.inl (by simpa [spawnAux, h] using h1)
      · refine Or.inr (fun k hk1 hk2 => ?_)
        rcases Nat.eq_or_lt_of_le hk1 with rfl | hlt
        · exact h
        · exact h1 k hlt (by omega)
    · exact Or.inl (by simp [spawnAux, h])

/-- When every attempt in range is occupied, the loop exhausts its attempts
and returns the last candidate. -/
theorem spawnAux_all_occupied (gen : Nat → Int × Int)
    (ps : List (Nat × Player)) :
    ∀ fuel t,
      (∀ k, t ≤ k → k < t + fuel →
        playerPosCheck (cand gen k).1 (cand gen k).2 ps = true) →
      spawnAux gen ps fuel t = cand gen (t + fuel - 1) := by
  intro fuel
  induction fuel with
  | zero => intro t _; rfl
  | succ n ih =>
    intro t hall
    have ht : playerPosCheck (cand gen t).1 (cand gen t).2 ps = true :=
      hall t le_rfl (by omega)
    simp only [spawnAux, ht, if_pos]
    rw [ih (t + 1) (fun k hk1 hk2 => hall k (by omega) (by omega))]
    congr 1
    omega

/-- C7, amended: the spawn step of a tick adds AT MOST ONE gatherable — it
is an `if`, not a `while`, so one tick's step leaves the count at old + 1
when below `GATHERABLE_LIMIT` (3), not at the limit.  The placed cell is a
grid candidate `(10a, 10b)`; it is free of players unless all 1000 attempts
drew occupied cells, in which case the 1000th candidate is placed
regardless; with in-range draws the cell lies in the bounded rectangle.
Each spawn is keyed by old counter + 2: one above the previously issued key,
not one above the maximum live key. -/
theorem spawn_step_semantics (gen : Nat → Int × Int) (st : GameSt)
    (counter : Nat) :
    (GATHERABLE_LIMIT ≤ st.gatherables.length →
      spawnStep gen st counter = (st, counter)) ∧
    (st.gatherables.length < GATHERABLE_LIMIT →
      (spawnStep gen st counter).1.gatherables
          = st.gatherables ++ [(counter + 2, spawnGatherable gen st.players)] ∧
      (spawnStep gen st counter).1.gatherables.length
          = st.gatherables.length + 1 ∧
      (spawnStep gen st counter).2 = counter + 1 ∧
      (∃ j, spawnGatherable gen st.players = cand gen j) ∧
      (playerPosCheck (spawnGatherable gen st.players).1
          (spawnGatherable gen st.players).2 st.players = false ∨
        ∀ k < 1000,
          playerPosCheck (cand gen k).1 (cand gen k).2 st.players = true) ∧
      ((∀ k < 1000,
          playerPosCheck (cand gen k).1 (cand gen k).2 st.players = true) →
        spawnGatherable gen st.players = cand gen 999) ∧
      ((∀ t, 0 ≤ (gen t).1 ∧ (gen t).1 ≤ 58 ∧ 0 ≤ (gen t).2 ∧ (gen t).2 ≤ 38) →
        X_MIN ≤ (spawnGatherable gen st.players).1 ∧
        (spawnGatherable gen st.players).1 ≤ X_MAX ∧
        Y_MIN ≤ (spawnGatherable gen st.players).2 ∧
        (spawnGatherable gen st.players).2 ≤ Y_MAX)) := by
  constructor
  · intro hge
    rw [spawnStep, if_neg (by omega)]
  · intro hlt
    have hstep : (spawnStep gen st counter).1.gatherables
        = st.gatherables ++ [(counter + 2, spawnGatherable gen st.players)] := by
      rw [spawnStep, if_pos hlt]
    refine ⟨hstep, by rw [hstep]; simp, by rw [spawnStep, if_pos hlt], ?_, ?_, ?_, ?_⟩
    · exact spawnAux_is_candidate gen st.players 1000 0
    · rcases spawnAux_unoccupied_or_all gen st.players 1000 0 with h | h
      · exact Or.inl h
      · exact Or.inr (fun k hk => h k (Nat.zero_le k) (by omega))
    · intro hall
      have := spawnAux_all_occupied gen st.players 1000 0
        (fun k hk1 hk2 => hall k (by omega))
      simpa using this
    · intro hrange
      obtain ⟨j, hj⟩ := spawnAux_is_candidate gen st.players 1000 0
      have hr := hrange j
      rw [show spawnGatherable gen st.players = cand gen j from hj, cand]
      refine ⟨?_, ?_, ?_, ?_⟩ <;> simp only [X_MIN, X_MAX, Y_MIN, Y_MAX] <;> omega

/-- A concrete one-player state with no gatherables. -/
def stC7 : GameSt :=
  { players := [(1, ⟨(0, 0), none, 0, 0⟩)], gatherables := [] }

/-- C7, counterexample: the spawn step is an `if`, not a `while`.  Starting
a tick with zero gatherables (and a fixed random oracle drawing cell
(10, 10), unoccupied), the step leaves exactly ONE gatherable, keyed "2" —
not `GATHERABLE_LIMIT` = 3 of them — refuting "the step leaves |gatherables|
equal to the limit". -/
theorem spawn_step_adds_at_most_one :
    (spawnStep (fun _ => (1, 1)) stC7 0).1.gatherables = [(2, (10, 10))] ∧
    (spawnStep (fun _ => (1, 1)) stC7 0).1.gatherables.length = 1 ∧
    (1 : Nat) ≠ GATHERABLE_LIMIT := by
  refine ⟨by decide, by decide, by decide⟩

/-- Witness for the amended C7 theorem on `stC7` with the constant oracle
drawing (1, 1): the below-limit and in-range hypotheses are discharged
concretely. -/
theorem spawn_step_semantics_witness :
    (spawnStep (fun _ => (1, 1)) stC7 0).1.gatherables
        = stC7.gatherables
            ++ [(2, spawnGatherable (fun _ => (1, 1)) stC7.players)] ∧
    (spawnStep (fun _ => (1, 1)) stC7 0).2 = 1 ∧
    (∃ j, spawnGatherable (fun _ => (1, 1)) stC7.players
        = cand (fun _ => (1, 1)) j) ∧
    X_MIN ≤ (spawnGatherable (fun _ => (1, 1)) stC7.players).1 ∧
    (spawnGatherable (fun _ => (1, 1)) stC7.players).1 ≤ X_MAX := by
  have h := (spawn_step_semantics (fun _ => (1, 1)) stC7 0).2 (by decide)
  have hb := h.2.2.2.2.2.2 (fun t => by norm_num)
  exact ⟨h.1, h.2.2.1, h.2.2.2.1, hb.1, hb.2.1⟩

/-! ## Position advance (`update_positions` and `border_check` in
`server.py`) -/

/-- Model of `border_check`: may this move proceed?  Only the four meaningful
(type, direction) string pairs match; Python falls through returning `None`
(falsy) on anything else. -/
def borderCheck (coord : Int) (ty dir : String) (inc : Int) : Bool :=
  if ty = "x" ∧ dir = "left" then decide (X_MIN ≤ coord - inc)
  else if ty = "x" ∧ dir = "right" then decide (coord + inc ≤ X_MAX)
  else if ty = "y" ∧ dir = "down" then decide (coord + inc ≤ Y_MAX)
  else if ty = "y" ∧ dir = "up" then decide (Y_MIN ≤ coord - inc)
  else false

/-- One player's position advance inside `update_positions`: one
`increment = 10` step in `last_direction`, guarded by `border_check`;
`None` (and any unrecognized string) leaves the position in place. -/
def movePlayer (pos : Int × Int) (dir : Option String) : Int × Int :=
  if dir = some "up" then
    if borderCheck pos.2 "y" "up" 10 then (pos.1, pos.2 - 10) else pos
  else if dir = some "down" then
    if borderCheck pos.2 "y" "down" 10 then (pos.1, pos.2 + 10) else pos
  else if dir = some "left" then
    if borderCheck pos.1 "x" "left" 10 then (pos.1 - 10, pos.2) else pos
  else if dir = some "right" then
    if borderCheck pos.1 "x" "right" 10 then (pos.1 + 10, pos.2) else pos
  else pos

/-- The destination cell one grid step away in a direction. -/
def destPos (pos : Int × Int) (d : String) : Int × Int :=
  if d = "up" then (pos.1, pos.2 - 10)
  else if d = "down" then (pos.1, pos.2 + 10)
  else if d = "left" then (pos.1 - 10, pos.2)
  else if d = "right" then (pos.1 + 10, pos.2)
  else pos

/-- Membership of a position in the bounded rectangle. -/
def inBoundsPos (p : Int × Int) : Prop :=
  X_MIN ≤ p.1 ∧ p.1 ≤ X_MAX ∧ Y_MIN ≤ p.2 ∧ p.2 ≤ Y_MAX

instance (p : Int × Int) : Decidable (inBoundsPos p) := by
  unfold inBoundsPos; infer_instance

/-- Bounds plus grid alignment: the position invariant of C8. -/
def posInvariant (p : Int × Int) : Prop :=
  inBoundsPos p ∧ (10 : Int) ∣ p.1 ∧ (10 : Int) ∣ p.2

instance (p : Int × Int) : Decidable (posInvariant p) := by
  unfold posInvariant inBoundsPos; infer_instance

theorem movePlayer_up (p : Int × Int) :
    movePlayer p (some "up")
      = if borderCheck p.2 "y" "up" 10 then (p.1, p.2 - 10) else p := rfl

theorem movePlayer_down (p : Int × Int) :
    movePlayer p (some "down")
      = if borderCheck p.2 "y" "down" 10 then (p.1, p.2 + 10) else p := rfl

theorem movePlayer_left (p : Int × Int) :
    movePlayer p (some "left")
      = if borderCheck p.1 "x" "left" 10 then (p.1 - 10, p.2) else p := rfl

theorem movePlayer_right (p : Int × Int) :
    movePlayer p (some "right")
      = if borderCheck p.1 "x" "right" 10 then (p.1 + 10, p.2) else p := rfl

theorem borderCheck_up (c : Int) :
    borderCheck c "y" "up" 10 = decide (Y_MIN ≤ c - 10) := rfl

theorem borderCheck_down (c : Int) :
    borderCheck c "y" "down" 10 = decide (c + 10 ≤ Y_MAX) := rfl

theorem borderCheck_left (c : Int) :
    borderCheck c "x" "left" 10 = decide (X_MIN ≤ c - 10) := rfl

theorem borderCheck_right (c : Int) :
    borderCheck c "x" "right" 10 = decide (c + 10 ≤ X_MAX) := rfl

/-- Any single advance preserves the bounds-and-grid invariant, whatever the
stored direction value is. -/
theorem movePlayer_invariant (p : Int × Int) (d : Option String)
    (h : posInvariant p) : posInvariant (movePlayer p d) := by
  obtain ⟨⟨h1, h2, h3, h4⟩, hdx, hdy⟩ := h
  have hten : (10 : Int) ∣ 10 := dvd_refl 10
  match d with
  | none => exact ⟨⟨h1, h2, h3, h4⟩, hdx, hdy⟩
  | some s =>
    by_cases hu : s = "up"
    · subst hu
      rw [movePlayer_up, borderCheck_up]
      by_cases hc : Y_MIN ≤ p.2 - 10
      · rw [if_pos (by simpa using hc)]
        exact ⟨⟨h1, h2, hc, by simp only [Y_MAX] at h4 ⊢; omega⟩,
          hdx, dvd_sub hdy hten⟩
      · rw [if_neg (by simpa using hc)]
        exact ⟨⟨h1, h2, h3, h4⟩, hdx, hdy⟩
    · by_cases hd2 : s = "down"
      · subst hd2
        rw [movePlayer_down, borderCheck_down]
        by_cases hc : p.2 + 10 ≤ Y_MAX
        · rw [if_pos (by simpa using hc)]
          exact ⟨⟨h1, h2, by simp only [Y_MIN] at h3 ⊢; omega, hc⟩,
            hdx, dvd_add hdy hten⟩
        · rw [if_neg (by simpa using hc)]
          exact ⟨⟨h1, h2, h3, h4⟩, hdx, hdy⟩
      · by_cases hl : s = "left"
        · subst hl
          rw [movePlayer_left, borderCheck_left]
          by_cases hc : X_MIN ≤ p.1 - 10
          · rw [if_pos (by simpa using hc)]
            exact ⟨⟨hc, by simp only [X_MAX] at h2 ⊢; omega, h3, h4⟩,
              dvd_sub hdx hten, hdy⟩
          · rw [if_neg (by simpa using hc)]
            exact ⟨⟨h1, h2, h3, h4⟩, hdx, hdy⟩
        · by_cases hr : s = "right"
          · subst hr
            rw [movePlayer_right, borderCheck_right]
            by_cases hc : p.1 + 10 ≤ X_MAX
            · rw [if_pos (by simpa using hc)]
              exact ⟨⟨by simp only [X_MIN] at h1 ⊢; omega, hc, h3, h4⟩,
                dvd_add hdx hten, hdy⟩
            · rw [if_neg (by simpa using hc)]
              exact ⟨⟨h1, h2, h3, h4⟩, hdx, hdy⟩
          · have : movePlayer p (some s) = p := by
              simp [movePlayer, hu, hd2, hl, hr]
            rw [this]
            exact ⟨⟨h1, h2, h3, h4⟩, hdx, hdy⟩

/-- C8: the position-advance step and its induced invariant.  For a position
inside the bounded rectangle, moving in one of the four directions reaches
exactly the one-grid-step destination when that destination is in bounds and
stays in place otherwise; consequently a player starting at (0, 0) — the
initialization in `handle_client` — satisfies, after any sequence of ticks
with arbitrary stored direction values, `X_MIN ≤ x ≤ X_MAX`,
`Y_MIN ≤ y ≤ Y_MAX` and `x ≡ 0 (mod 10)`, `y ≡ 0 (mod 10)`. -/
theorem move_step_bounds_invariant :
    (∀ (p : Int × Int) (d : String), inBoundsPos p →
      d ∈ (["up", "down", "left", "right"] : List String) →
      movePlayer p (some d)
        = if inBoundsPos (destPos p d) then destPos p d else p) ∧
    (∀ dirs : List (Option String),
      posInvariant (dirs.foldl movePlayer (0, 0))) := by
  constructor
  · intro p d hin hd
    obtain ⟨h1, h2, h3, h4⟩ := hin
    simp only [List.mem_cons, List.not_mem_nil, or_false] at hd
    rcases hd with rfl | rfl | rfl | rfl
    · rw [movePlayer_up, borderCheck_up]
      by_cases hc : Y_MIN ≤ p.2 - 10
      · rw [if_pos (by simpa using hc),
          if_pos (show inBoundsPos (destPos p "up") from
            ⟨h1, h2, hc, by simp [destPos, Y_MAX] at h4 ⊢; omega⟩)]
        rfl
      · rw [if_neg (by simpa using hc), if_neg (fun hbad => hc ?_)]
        have := hbad.2.2.1
        simpa [destPos] using this
    · rw [movePlayer_down, borderCheck_down]
      by_cases hc : p.2 + 10 ≤ Y_MAX
      · rw [if_pos (by simpa using hc),
          if_pos (show inBoundsPos (destPos p "down") from
            ⟨h1, h2, by simp [destPos, Y_MIN] at h3 ⊢; omega, by
              simpa [destPos] using hc⟩)]
        rfl
      · rw [if_neg (by simpa using hc), if_neg (fun hbad => hc ?_)]
        have := hbad.2.2.2
        simpa [destPos] using this
    · rw [movePlayer_left, borderCheck_left]
      by_cases hc : X_MIN ≤ p.1 - 10
      · rw [if_pos (by simpa using hc),
          if_pos (show inBoundsPos (destPos p "left") from
            ⟨hc, by simp [destPos, X_MAX] at h2 ⊢; omega, h3, h4⟩)]
        rfl
      · rw [if_neg (by simpa using hc), if_neg (fun hbad => hc ?_)]
        have := hbad.1
        simpa [destPos] using this
    · rw [movePlayer_right, borderCheck_right]
      by_cases hc : p.1 + 10 ≤ X_MAX
      · rw [if_pos (by simpa using hc),
          if_pos (show inBoundsPos (destPos p "right") from
            ⟨by simp [destPos, X_MIN] at h1 ⊢; omega, by
              simpa [destPos] using hc, h3, h4⟩)]
        rfl
      · rw [if_neg (by simpa using hc), if_neg (fun hbad => hc ?_)]
        have := hbad.2.1
        simpa [destPos] using this
  · have hfold : ∀ (dirs : List (Option String)) (p : Int × Int),
        posInvariant p → posInvariant (dirs.foldl movePlayer p) := by
      intro dirs
      induction dirs with
      | nil => intro p hp; exact hp
      | cons d t ih =>
        intro p hp
        exact ih (movePlayer p d) (movePlayer_invariant p d hp)
    intro dirs
    exact hfold dirs (0, 0) (by decide)

/-- Witness for C8 at the origin moving right once: hypotheses discharged at
(0, 0) and direction "right". -/
theorem move_step_bounds_invariant_witness :
    movePlayer (0, 0) (some "right")
      = (if inBoundsPos (destPos (0, 0) "right") then destPos (0, 0) "right"
         else (0, 0)) ∧
    posInvariant ([some "right", some "up"].foldl movePlayer (0, 0)) := by
  exact ⟨move_step_bounds_invariant.1 (0, 0) "right" (by decide) (by decide),
    move_step_bounds_invariant.2 [some "right", some "up"]⟩

/-! ## Client reducer (spec §4.7; `poll_and_act_update` in `client.py` and
`poll_client_msg_queue` in `network.py`) -/

/-- A client-class snapshot message as merged by the client's reducer
(`poll_and_act_update`): any subset of a player id assignment, a replacement
player-positions map, and a replacement gatherables map. -/
structure ClientUpdate where
  playerIdField : Option Nat
  playersField : Option (List (Nat × (Int × Int)))
  gatherablesField : Option (List (Nat × (Int × Int)))
deriving DecidableEq, Repr

/-- The client's local state: its assigned player id (set once), the last
player-positions map, and the last gatherables map. -/
structure ClientState where
  playerId : Option Nat
  positions : List (Nat × (Int × Int))
  gatherables : List (Nat × (Int × Int))
deriving DecidableEq, Repr

/-- The merge of one honored update, as `poll_and_act_update` does it: take
`player_id` only while none is set yet, and replace `players` and
`gatherables` wholesale when present. -/
def applyUpdate (st : ClientState) (u : ClientUpdate) : ClientState :=
  let st1 :=
    match u.playerIdField, st.playerId with
    | some pid, none => { st with playerId := some pid }
    | _, _ => st
  let st2 :=
    match u.playersField with
    | some ps => { st1 with positions := ps }
    | none => st1
  match u.gatherablesField with
  | some gs => { st2 with gatherables := gs }
  | none => st2

/-- Modelled from the spec: the leader filter of the client reducer (§4.7,
"a message is honored only if its sender equals `registry.leader_id`;
messages from non-leaders are silently discarded").  The integrated reducer
is absent from the sources: `client.py`'s `poll_and_act_update` consumes a
single-server queue with no sender ids, and `network.py`'s
`poll_client_msg_queue`, which supplies the `(peer_id, msg)` pairs, has no
caller there.  One polled message is honored — merged via `applyUpdate` —
exactly when its sender is the current leader. -/
def reducerStep (leader : Option Nat) (st : ClientState)
    (m : Nat × ClientUpdate) : ClientState :=
  if some m.1 = leader then applyUpdate st m.2 else st

/-- Modelled from the spec: the reducer run over a polled message sequence,
oldest first. -/
def runReducer (leader : Option Nat) (st : ClientState)
    (msgs : List (Nat × ClientUpdate)) : ClientState :=
  msgs.foldl (reducerStep leader) st

/-- Dropping the non-leader messages from a polled sequence does not change
the reducer's result. -/
theorem runReducer_filter (leader : Option Nat) :
    ∀ (msgs : List (Nat × ClientUpdate)) (st : ClientState),
      runReducer leader st msgs
        = runReducer leader st
            (msgs.filter (fun m => decide (some m.1 = leader))) := by
  intro msgs
  induction msgs with
  | nil => intro st; rfl
  | cons m t ih =>
    intro st
    by_cases hm : some m.1 = leader
    · have hfilter : (m :: t).filter (fun x => decide (some x.1 = leader))
          = m :: t.filter (fun x => decide (some x.1 = leader)) :=
        List.filter_cons_of_pos (by simp [hm])
      rw [hfilter]
      exact ih (reducerStep leader st m)
    · have hfilter : (m :: t).filter (fun x => decide (some x.1 = leader))
          = t.filter (fun x => decide (some x.1 = leader)) :=
        List.filter_cons_of_neg (by simp [hm])
      rw [hfilter]
      have hstep : reducerStep leader st m = st := by
        simp [reducerStep, hm]
      calc runReducer leader st (m :: t)
          = runReducer leader (reducerStep leader st m) t := rfl
        _ = runReducer leader st t := by rw [hstep]
        _ = runReducer leader st
              (t.filter (fun x => decide (some x.1 = leader))) := ih st

/-- C9 (spec-modelled): the client state depends only on the messages whose
sender equals the registry's `leader_id` — two polled sequences with the
same leader-sent subsequence drive any starting state to the same final
state, so messages from non-leaders are unobservable in the client's local
state. -/
theorem client_reducer_ignores_non_leader (leader : Option Nat)
    (msgs1 msgs2 : List (Nat × ClientUpdate)) (st : ClientState)
    (hsame : msgs1.filter (fun m => decide (some m.1 = leader))
        = msgs2.filter (fun m => decide (some m.1 = leader))) :
    runReducer leader st msgs1 = runReducer leader st msgs2 := by
  rw [runReducer_filter leader msgs1 st, runReducer_filter leader msgs2 st,
    hsame]

/-- Witness for C9: a leader snapshot interleaved with a non-leader
forgery produces the same state as the leader snapshot alone. -/
theorem client_reducer_ignores_non_leader_witness :
    runReducer (some 1) ⟨none, [], []⟩
        [(1, ⟨some 7, none, none⟩), (2, ⟨some 9, none, none⟩)]
      = runReducer (some 1) ⟨none, [], []⟩ [(1, ⟨some 7, none, none⟩)] := by
  exact client_reducer_ignores_non_leader (some 1)
    [(1, ⟨some 7, none, none⟩), (2, ⟨some 9, none, none⟩)]
    [(1, ⟨some 7, none, none⟩)] ⟨none, [], []⟩ (by decide)

end Dist24
